import Mathlib

/-!
Verification development for the `fps_auth_thinkube` authentication subsystem
(`src/fps_auth_thinkube/routes.py` and `models.py`).

The Python code is embedded shallowly:

* `PyValue` models the dynamically typed values stored in record attributes
  (strings, `None`, booleans, and the `dict[str, list[str]]` permissions map).
* `ThinkubeUser` mirrors the pydantic model of `models.py`, with the same
  field names and defaults; attribute values are `PyValue` because Python's
  `setattr` can place a value of any type into any field.
* The session store `self._users : dict[str, ThinkubeUser]` is a function
  `String → Option ThinkubeUser`; Python's in-place mutation of a stored
  record is rendered as re-inserting the updated value at the same key.
* Fallible Python expressions (the `username[0]` indexing that can raise
  `IndexError`) return `Option`; HTTP handlers return an explicit outcome
  value instead of raising, paired with the resulting store.
* Calls into the external JupyterHub client (`HubOAuth`) are parameters of
  the embedding (`CallbackEnv`, the `hubUserForToken` arguments): that code
  is a third-party dependency, specified only at its interface.
-/

namespace FpsAuthThinkube

/-- Dynamically typed Python value as stored in a record attribute:
a string, `None`, a boolean, or a `dict[str, list[str]]` permissions map. -/
inductive PyValue where
  | str (s : String)
  | pynone
  | bool (b : Bool)
  | perms (p : List (String × List String))
deriving DecidableEq

/-- The slice of the JupyterHub identity dict that `routes.py` reads: the
optional `"name"` entry used via `hub_user.get("name", ...)`. -/
structure HubUser where
  name? : Option String
deriving DecidableEq

/-- `models.py` lines 6-26: the `ThinkubeUser` pydantic model, same field
names and defaults (`workspace`/`settings` default to the two-character
string `"\x7b\x7d"`, i.e. an empty JSON object). -/
structure ThinkubeUser where
  username : PyValue := PyValue.str ""
  name : PyValue := PyValue.str ""
  display_name : PyValue := PyValue.str ""
  initials : PyValue := PyValue.str ""
  avatar_url : PyValue := PyValue.pynone
  color : PyValue := PyValue.pynone
  token : PyValue := PyValue.str ""
  anonymous : PyValue := PyValue.bool false
  workspace : PyValue := PyValue.str "\x7b\x7d"
  settings : PyValue := PyValue.str "\x7b\x7d"
  permissions : PyValue := PyValue.perms []
deriving DecidableEq

/-- The in-memory session store `self._users : dict[str, ThinkubeUser]`. -/
def Store := String → Option ThinkubeUser

/-- Dictionary assignment `self._users[token] = user`. -/
def Store.insert (s : Store) (k : String) (u : ThinkubeUser) : Store :=
  fun k' => if k' = k then some u else s k'

/-- ASCII whitespace recognised by Python's `str.split()` (space, tab,
newline, carriage return, vertical tab, form feed).  Python also splits on
further Unicode whitespace; every input appearing in the specification is
ASCII, so the embedding restricts to the ASCII set. -/
def isPySpace (c : Char) : Bool :=
  (c = ' ') || (c = '\t') || (c = '\n') || (c = '\r') || (c = '\x0b') || (c = '\x0c')

/-- Helper for `pyWords`: walks the character list, accumulating the current
word (in reverse) and emitting it when a separator or the end is reached. -/
def pyWordsAux : List Char → List Char → List String
  | [], acc => if acc.isEmpty then [] else [String.mk acc.reverse]
  | c :: cs, acc =>
    if isPySpace c then
      if acc.isEmpty then pyWordsAux cs []
      else String.mk acc.reverse :: pyWordsAux cs []
    else pyWordsAux cs (c :: acc)

/-- Python `display_name.split()`: split on runs of whitespace, yielding no
empty words. -/
def pyWords (s : String) : List String :=
  pyWordsAux s.data []

/-- `routes.py` lines 96 and 177:
`"".join(word[0].upper() for word in display_name.split() if word)`.
The `if word` guard keeps only non-empty words, so the `word[0]` index is
always defined; `filterMap` over `head?` renders exactly that. -/
def wordInitials (d : String) : String :=
  String.join (((pyWords d).filter (fun w => !w.isEmpty)).filterMap
    (fun w => w.data.head?.map (fun c => String.singleton (Char.toUpper c))))

/-- `routes.py` lines 103 and 184: `initials or username[0].upper()`.
Python's `or` takes the left string when it is non-empty; otherwise it
evaluates `username[0]`, which raises `IndexError` (here: `none`) when the
username is empty. -/
def mkInitials (displayName username : String) : Option String :=
  let w := wordInitials displayName
  if w = "" then username.data.head?.map (fun c => String.singleton (Char.toUpper c))
  else some w

/-- `routes.py` lines 94-105 (and the identical lines 175-186): derive the
username, display name and initials from the hub identity and build the
`ThinkubeUser` record; `none` models the `IndexError` raised by the initials
fallback when the derived username is empty. -/
def mkUserFromHub (token : String) (hu : HubUser) : Option ThinkubeUser :=
  let username := hu.name?.getD "anonymous"
  let display_name := hu.name?.getD username
  match mkInitials display_name username with
  | none => none
  | some ini =>
    some { token := PyValue.str token
           username := PyValue.str username
           name := PyValue.str username
           display_name := PyValue.str display_name
           initials := PyValue.str ini
           anonymous := PyValue.bool false }

/-- An exception raised inside the external `HubOAuth` client (for example
the tornado `HTTPError` that `token_for_code` raises when the hub rejects
the exchange or is unreachable).  It is a distinct Python type from the
`fastapi.HTTPException` that the handlers in `routes.py` construct. -/
structure HubFailure where
  status : Nat
  msg : String
deriving DecidableEq

/-- The externally-provided `HubOAuth` operations that `oauth_callback`
calls: `token_for_code` (which may raise, hence `Except`), `user_for_token`
(returning the identity dict or `None`), and `get_next_url` applied to the
state-cookie value. -/
structure CallbackEnv where
  tokenForCode : String → Except HubFailure String
  userForToken : String → Option HubUser
  nextUrl : Option String → String

/-- Outcome of `oauth_callback`: a redirect response carrying the session
cookie, an `HTTPException(status, detail)` raised by the handler itself, a
propagated hub-client exception (not converted by the handler), or a
propagated `IndexError` from the initials fallback. -/
inductive CbOutcome where
  | redirect (url : String) (cookieKey cookieValue : String)
  | httpError (status : Nat) (detail : Option String)
  | hubException (e : HubFailure)
  | indexError
deriving DecidableEq

/-- True exactly when the outcome is the HTTP 403 Forbidden exception
raised by the handler's own checks. -/
def CbOutcome.isForbidden : CbOutcome → Bool
  | .httpError 403 _ => true
  | _ => false

/-- `routes.py` lines 66-115, `oauth_callback`: reject a missing `code`
(403), reject a missing or cookie-mismatching `state` (403), exchange the
code for a token (a hub-client failure propagates uncaught), resolve the
token to a hub identity (`None` gives 403 with a detail message), build the
user record (an `IndexError` propagates), store it under the token, and
redirect to the next URL with the session cookie set to the token.  The
resulting store is returned alongside the outcome. -/
def oauth_callback (env : CallbackEnv) (cookieName : String)
    (code? state? cookieState? : Option String) (s : Store) : Store × CbOutcome :=
  match code? with
  | none => (s, CbOutcome.httpError 403 none)
  | some code =>
    match state? with
    | none => (s, CbOutcome.httpError 403 none)
    | some st =>
      if cookieState? ≠ some st then (s, CbOutcome.httpError 403 none)
      else
        match env.tokenForCode code with
        | Except.error e => (s, CbOutcome.hubException e)
        | Except.ok token =>
          match env.userForToken token with
          | none => (s, CbOutcome.httpError 403 (some "Failed to get user info from JupyterHub"))
          | some hu =>
            match mkUserFromHub token hu with
            | none => (s, CbOutcome.indexError)
            | some user =>
              (s.insert token user,
               CbOutcome.redirect (env.nextUrl cookieState?) cookieName token)

/-- The attribute names a `ThinkubeUser` record exposes (the pydantic model
fields of `models.py`); `hasattr(user, k)` for a field-update key is a
membership test in this list. -/
def thinkubeFields : List String :=
  ["username", "name", "display_name", "initials", "avatar_url", "color",
   "token", "anonymous", "workspace", "settings", "permissions"]

/-- `routes.py` lines 240-242: `if hasattr(user, k): setattr(user, k, v)`.
A key naming a model field replaces that field's value; any other key
leaves the record unchanged. -/
def setAttr (u : ThinkubeUser) (k : String) (v : PyValue) : ThinkubeUser :=
  if k = "username" then { u with username := v }
  else if k = "name" then { u with name := v }
  else if k = "display_name" then { u with display_name := v }
  else if k = "initials" then { u with initials := v }
  else if k = "avatar_url" then { u with avatar_url := v }
  else if k = "color" then { u with color := v }
  else if k = "token" then { u with token := v }
  else if k = "anonymous" then { u with anonymous := v }
  else if k = "workspace" then { u with workspace := v }
  else if k = "settings" then { u with settings := v }
  else if k = "permissions" then { u with permissions := v }
  else u

/-- `routes.py` lines 229-246, the `update_user` dependency: with no token
or an unknown token it returns `None` and leaves the store alone (a stored
pydantic record is always truthy, so `if user:` is a `None` test); with a
known token it applies each payload entry in order via `setAttr` and
returns the updated record, which the store now holds under the same key. -/
def update_user (token? : Option String) (data : List (String × PyValue))
    (s : Store) : Store × Option ThinkubeUser :=
  match token? with
  | none => (s, none)
  | some token =>
    match s token with
    | none => (s, none)
    | some user =>
      let user' := data.foldl (fun u kv => setAttr u kv.1 kv.2) user
      (s.insert token user', some user')

/-- The six keys of the identity payload, `routes.py` line 136. -/
def apiMeKeys : List String :=
  ["username", "name", "display_name", "initials", "avatar_url", "color"]

/-- Python `getattr(user, k, None)`: the field's value when `k` names a
model field, `None` otherwise. -/
def getAttrOr (u : ThinkubeUser) (k : String) : PyValue :=
  if k = "username" then u.username
  else if k = "name" then u.name
  else if k = "display_name" then u.display_name
  else if k = "initials" then u.initials
  else if k = "avatar_url" then u.avatar_url
  else if k = "color" then u.color
  else if k = "token" then u.token
  else if k = "anonymous" then u.anonymous
  else if k = "workspace" then u.workspace
  else if k = "settings" then u.settings
  else if k = "permissions" then u.permissions
  else PyValue.pynone

/-- `routes.py` lines 117-141, the body of `get_api_me` after the current
user has been resolved, parameterised by the already-parsed `permissions`
query map.  `checked_permissions` starts empty; only when the requested map
is non-empty does the loop run, and it checks each action against
`user_permissions.get(resource, [])` where `user_permissions` is the empty
dict, so every allowed-list is empty.  The identity payload maps each of
the six keys to `getattr(user, k, None)`. -/
def get_api_me (u : ThinkubeUser) (preq : List (String × List String)) :
    List (String × PyValue) × List (String × List String) :=
  let userPermissions : List (String × List String) := []
  let checked : List (String × List String) :=
    if preq.isEmpty then []
    else preq.map (fun ra =>
      (ra.1, ra.2.filter (fun a => a ∈ ((userPermissions.lookup ra.1).getD []))))
  let identity := apiMeKeys.map (fun k => (k, getAttrOr u k))
  (identity, checked)

/-- `routes.py` lines 248-276, the `websocket_auth` dependency: if the
session cookie is absent from the handshake, or the hub resolves the token
to no identity, the socket is closed with code 1008 (policy violation) and
`None` is returned; otherwise the pair `(websocket, permissions)` is
returned with the caller's requested permissions untouched.  The result is
the returned value paired with the close code issued, if any. -/
def websocket_auth (cookieName : String)
    (permissions : Option (List (String × List String))) (ws : Nat)
    (cookies : String → Option String)
    (hubUserForToken : String → Option HubUser) :
    Option (Nat × Option (List (String × List String))) × Option Nat :=
  match cookies cookieName with
  | none => (none, some 1008)
  | some token =>
    match hubUserForToken token with
    | none => (none, some 1008)
    | some _ => (some (ws, permissions), none)

/-! ### Concurrency model of the get-or-create critical section

`routes.py` lines 171-187 (`current_user`): after the hub has validated the
token, each request task runs

    async with self._lock:
        user = self._users.get(token)
        if user is None:
            user = ThinkubeUser(...)      # mkUserFromHub
            self._users[token] = user

The lock body contains no `await`, so once a task holds the lock it performs
the lookup and the conditional insert without interference.  The model gives
each task two transitions: acquiring the lock together with the dictionary
lookup, and then the conditional construct-and-insert together with the lock
release.  A task whose transition is not enabled (lock held by another task,
or already finished) makes no move.  All tasks present the same token and
the same hub identity, so they would all construct the same record `u`. -/

/-- Program counter of one request task inside the critical section. -/
inductive TaskPC where
  | start
  | locked (found : Option ThinkubeUser)
  | finished (u : ThinkubeUser)
deriving DecidableEq

/-- True when the task has completed and returned a record. -/
def TaskPC.isFinished : TaskPC → Bool
  | .finished _ => true
  | _ => false

/-- Global state of `n` tasks racing on the session store: the store, the
anyio lock (`none` = free, `some i` = held by task `i`), each task's
program counter, and a count of how many records have been constructed and
inserted. -/
structure RaceConfig (n : Nat) where
  store : Store
  lock : Option (Fin n)
  tasks : Fin n → TaskPC
  inserts : Nat

/-- One scheduler step of task `i`: a `start` task acquires the free lock
and performs `self._users.get(token)`; a `locked` task performs the
conditional construct-and-insert of lines 173-187 and releases the lock; a
blocked or finished task does nothing. -/
def raceStep (token : String) (u : ThinkubeUser) {n : Nat}
    (c : RaceConfig n) (i : Fin n) : RaceConfig n :=
  match c.tasks i with
  | TaskPC.start =>
    match c.lock with
    | none =>
      { c with lock := some i
               tasks := Function.update c.tasks i (TaskPC.locked (c.store token)) }
    | some _ => c
  | TaskPC.locked found =>
    if c.lock = some i then
      match found with
      | some u0 =>
        { c with lock := none
                 tasks := Function.update c.tasks i (TaskPC.finished u0) }
      | none =>
        { c with store := c.store.insert token u
                 lock := none
                 inserts := c.inserts + 1
                 tasks := Function.update c.tasks i (TaskPC.finished u) }
    else c
  | TaskPC.finished _ => c

/-- Run a schedule: a list of task choices, applied in order. -/
def raceRun (token : String) (u : ThinkubeUser) {n : Nat}
    (c : RaceConfig n) : List (Fin n) → RaceConfig n
  | [] => c
  | i :: rest => raceRun token u (raceStep token u c i) rest

/-- Initial configuration: the given store, a free lock, all tasks at the
start, nothing inserted yet. -/
def raceInit (n : Nat) (s : Store) : RaceConfig n :=
  { store := s, lock := none, tasks := fun _ => TaskPC.start, inserts := 0 }

/-- Inductive invariant of the race: a locked task holds the lock and its
lookup snapshot is current; at most one record has been inserted; the store
holds the token exactly when an insert happened, and then it holds `u`; a
finished task returned `u`, and by then the single insert has happened. -/
structure RaceInv (token : String) (u : ThinkubeUser) {n : Nat}
    (c : RaceConfig n) : Prop where
  locked_lock : ∀ i f, c.tasks i = TaskPC.locked f → c.lock = some i
  locked_snap : ∀ i f, c.tasks i = TaskPC.locked f → f = c.store token
  ins_le : c.inserts ≤ 1
  ins_zero : c.inserts = 0 → c.store token = none
  ins_one : c.inserts = 1 → c.store token = some u
  finished_spec : ∀ i v, c.tasks i = TaskPC.finished v → v = u ∧ c.inserts = 1

theorem raceInv_init (token : String) (u : ThinkubeUser) {n : Nat}
    (s : Store) (hs : s token = none) : RaceInv token u (raceInit n s) := by
  refine ⟨fun i f h => ?_, fun i f h => ?_, ?_, fun _ => hs, fun h => ?_, fun i v h => ?_⟩
  · exact absurd h (by simp [raceInit])
  · exact absurd h (by simp [raceInit])
  · show (0 : Nat) ≤ 1; omega
  · exact absurd h (by simp [raceInit])
  · exact absurd h (by simp [raceInit])

theorem raceInv_step (token : String) (u : ThinkubeUser) {n : Nat}
    {c : RaceConfig n} (inv : RaceInv token u c) (i : Fin n) :
    RaceInv token u (raceStep token u c i) := by
  cases htask : c.tasks i with
  | start =>
    cases hlock : c.lock with
    | some k =>
      have hstep : raceStep token u c i = c := by simp [raceStep, htask, hlock]
      rw [hstep]; exact inv
    | none =>
      have hstep : raceStep token u c i =
          { c with lock := some i,
                   tasks := Function.update c.tasks i (TaskPC.locked (c.store token)) } := by
        simp [raceStep, htask, hlock]
      rw [hstep]
      refine ⟨?_, ?_, inv.ins_le, inv.ins_zero, inv.ins_one, ?_⟩
      · intro j f hj
        dsimp only at hj ⊢
        by_cases hji : j = i
        · rw [hji]
        · rw [Function.update_noteq hji] at hj
          have hl := inv.locked_lock j f hj
          rw [hlock] at hl
          exact Option.noConfusion hl
      · intro j f hj
        dsimp only at hj ⊢
        by_cases hji : j = i
        · rw [hji, Function.update_same] at hj
          injection hj with h
          exact h.symm
        · rw [Function.update_noteq hji] at hj
          have hl := inv.locked_lock j f hj
          rw [hlock] at hl
          exact Option.noConfusion hl
      · intro j v hj
        dsimp only at hj ⊢
        by_cases hji : j = i
        · rw [hji, Function.update_same] at hj
          exact absurd hj (by simp)
        · rw [Function.update_noteq hji] at hj
          exact inv.finished_spec j v hj
  | locked found =>
    by_cases hl : c.lock = some i
    · cases found with
      | some u0 =>
        have hstore : c.store token = some u0 := (inv.locked_snap i _ htask).symm
        have hins1 : c.inserts = 1 := by
          rcases Nat.lt_or_ge c.inserts 1 with h | h
          · have h0 : c.inserts = 0 := by omega
            have h1 := inv.ins_zero h0
            rw [hstore] at h1
            exact Option.noConfusion h1
          · exact Nat.le_antisymm inv.ins_le h
        have huu : u0 = u := by
          have h1 := inv.ins_one hins1
          rw [hstore] at h1
          injection h1
        have hstep : raceStep token u c i =
            { c with lock := none,
                     tasks := Function.update c.tasks i (TaskPC.finished u0) } := by
          simp [raceStep, htask, hl]
        rw [hstep]
        refine ⟨?_, ?_, inv.ins_le, inv.ins_zero, inv.ins_one, ?_⟩
        · intro j f hj
          dsimp only at hj ⊢
          by_cases hji : j = i
          · rw [hji, Function.update_same] at hj
            exact absurd hj (by simp)
          · rw [Function.update_noteq hji] at hj
            have h2 := inv.locked_lock j f hj
            rw [hl] at h2
            injection h2 with h3
            exact absurd h3.symm hji
        · intro j f hj
          dsimp only at hj ⊢
          by_cases hji : j = i
          · rw [hji, Function.update_same] at hj
            exact absurd hj (by simp)
          · rw [Function.update_noteq hji] at hj
            have h2 := inv.locked_lock j f hj
            rw [hl] at h2
            injection h2 with h3
            exact absurd h3.symm hji
        · intro j v hj
          dsimp only at hj ⊢
          by_cases hji : j = i
          · rw [hji, Function.update_same] at hj
            injection hj with h2
            exact ⟨h2.symm.trans huu, hins1⟩
          · rw [Function.update_noteq hji] at hj
            exact inv.finished_spec j v hj
      | none =>
        have hstore : c.store token = none := (inv.locked_snap i _ htask).symm
        have hins0 : c.inserts = 0 := by
          by_contra h0
          have h1 : c.inserts = 1 := by
            have h2 := inv.ins_le
            omega
          have h2 := inv.ins_one h1
          rw [hstore] at h2
          exact Option.noConfusion h2
        have hstep : raceStep token u c i =
            { c with store := c.store.insert token u,
                     lock := none,
                     inserts := c.inserts + 1,
                     tasks := Function.update c.tasks i (TaskPC.finished u) } := by
          simp [raceStep, htask, hl]
        rw [hstep]
        refine ⟨?_, ?_, ?_, ?_, ?_, ?_⟩
        · intro j f hj
          dsimp only at hj ⊢
          by_cases hji : j = i
          · rw [hji, Function.update_same] at hj
            exact absurd hj (by simp)
          · rw [Function.update_noteq hji] at hj
            have h2 := inv.locked_lock j f hj
            rw [hl] at h2
            injection h2 with h3
            exact absurd h3.symm hji
        · intro j f hj
          dsimp only at hj ⊢
          by_cases hji : j = i
          · rw [hji, Function.update_same] at hj
            exact absurd hj (by simp)
          · rw [Function.update_noteq hji] at hj
            have h2 := inv.locked_lock j f hj
            rw [hl] at h2
            injection h2 with h3
            exact absurd h3.symm hji
        · dsimp only
          omega
        · dsimp only
          intro h
          omega
        · dsimp only
          intro _
          simp [Store.insert]
        · intro j v hj
          dsimp only at hj ⊢
          by_cases hji : j = i
          · rw [hji, Function.update_same] at hj
            injection hj with h2
            exact ⟨h2.symm, by omega⟩
          · rw [Function.update_noteq hji] at hj
            obtain ⟨hv, hc⟩ := inv.finished_spec j v hj
            exact ⟨hv, by omega⟩
    · have hstep : raceStep token u c i = c := by simp [raceStep, htask, hl]
      rw [hstep]; exact inv
  | finished v =>
    have hstep : raceStep token u c i = c := by simp [raceStep, htask]
    rw [hstep]; exact inv

theorem raceInv_run (token : String) (u : ThinkubeUser) {n : Nat}
    {c : RaceConfig n} (inv : RaceInv token u c) :
    ∀ trace : List (Fin n), RaceInv token u (raceRun token u c trace)
  | [] => inv
  | i :: rest => raceInv_run token u (raceInv_step token u inv i) rest

theorem mkUserFromHub_token_eq (t : String) (hu : HubUser) (u : ThinkubeUser)
    (h : mkUserFromHub t hu = some u) : u.token = PyValue.str t := by
  simp only [mkUserFromHub] at h
  split at h
  · exact Option.noConfusion h
  · injection h with h'
    subst h'
    rfl

/-! ### Concrete fixtures used by witnesses and counterexamples -/

/-- An empty session store. -/
def emptyStore : Store := fun _ => none

/-- The record `mkUserFromHub "t" ⟨some "alice"⟩` constructs. -/
def uAlice : ThinkubeUser :=
  { username := PyValue.str "alice", name := PyValue.str "alice",
    display_name := PyValue.str "alice", initials := PyValue.str "A",
    token := PyValue.str "t", anonymous := PyValue.bool false }

/-- The record `mkUserFromHub "t" ⟨some "Alice Wonder"⟩` constructs. -/
def uAW : ThinkubeUser :=
  { username := PyValue.str "Alice Wonder", name := PyValue.str "Alice Wonder",
    display_name := PyValue.str "Alice Wonder", initials := PyValue.str "AW",
    token := PyValue.str "t", anonymous := PyValue.bool false }

/-- A stored record for user bob under token "tok". -/
def u0 : ThinkubeUser :=
  { username := PyValue.str "bob", name := PyValue.str "bob",
    display_name := PyValue.str "bob", initials := PyValue.str "B",
    token := PyValue.str "tok", anonymous := PyValue.bool false }

/-- A store holding exactly `u0` under key "tok". -/
def st0 : Store := fun k => if k = "tok" then some u0 else none

/-- A hub environment whose calls all succeed. -/
def env0 : CallbackEnv :=
  { tokenForCode := fun _ => Except.ok "tk"
    userForToken := fun _ => some ⟨some "alice"⟩
    nextUrl := fun _ => "/lab" }

/-- A hub environment whose code-for-token exchange raises. -/
def envExchangeFail : CallbackEnv :=
  { tokenForCode := fun _ => Except.error { status := 500, msg := "exchange failed" }
    userForToken := fun _ => some ⟨some "alice"⟩
    nextUrl := fun _ => "/lab" }

/-- Handshake cookies holding token "t" under cookie name "ck". -/
def wsCookies : String → Option String := fun k => if k = "ck" then some "t" else none

/-- A hub that resolves every token to the identity of alice. -/
def hubAccepts : String → Option HubUser := fun _ => some ⟨some "alice"⟩

/-- A hub that rejects every token. -/
def hubRejects : String → Option HubUser := fun _ => none

/-! ### The claims -/

/-- C1: for every OAuth callback request in which the `state` query parameter
is absent, or does not exactly equal the value of the state cookie carried by
the request, the callback raises Forbidden (HTTP 403) and the Session Store
mapping is exactly the same after the call as before it. -/
theorem oauth_callback_state_mismatch_forbidden
    (env : CallbackEnv) (cookieName : String)
    (code? state? cookieState? : Option String) (s : Store)
    (h : state? = none ∨ state? ≠ cookieState?) :
    oauth_callback env cookieName code? state? cookieState? s
      = (s, CbOutcome.httpError 403 none) := by
  cases code? with
  | none => rfl
  | some code =>
    cases state? with
    | none => rfl
    | some st =>
      have hne : cookieState? ≠ some st := by
        rcases h with h | h
        · exact absurd h (by simp)
        · exact fun hc => h hc.symm
      simp [oauth_callback, hne]

/-- Witness for C1: a concrete request with the state parameter absent. -/
theorem oauth_callback_state_mismatch_forbidden_witness :
    oauth_callback env0 "jupyverse_thinkube_token" (some "c") none (some "s") emptyStore
      = (emptyStore, CbOutcome.httpError 403 none) :=
  oauth_callback_state_mismatch_forbidden env0 "jupyverse_thinkube_token"
    (some "c") none (some "s") emptyStore (Or.inl rfl)

/-- C2: for every N >= 1 concurrent invocations of the current-user resolver
presenting the same valid token that is not yet in the Session Store, under
any interleaving in which every task completes, exactly one record is
constructed and inserted (the lookup and conditional insert run atomically
under the single store lock), and every invocation returns a record whose
token field equals the presented token. -/
theorem current_user_race_single_insert
    (n : Nat) (hn : 0 < n) (token : String) (hu : HubUser) (u : ThinkubeUser)
    (hmk : mkUserFromHub token hu = some u)
    (s0 : Store) (hs : s0 token = none)
    (trace : List (Fin n))
    (hfin : ∀ i, ((raceRun token u (raceInit n s0) trace).tasks i).isFinished = true) :
    (raceRun token u (raceInit n s0) trace).inserts = 1
    ∧ (raceRun token u (raceInit n s0) trace).store token = some u
    ∧ ∀ i v, (raceRun token u (raceInit n s0) trace).tasks i = TaskPC.finished v →
        v.token = PyValue.str token := by
  have inv := raceInv_run token u (raceInv_init token u s0 hs) trace
  have h0 := hfin ⟨0, hn⟩
  cases ht : (raceRun token u (raceInit n s0) trace).tasks ⟨0, hn⟩ with
  | start => rw [ht] at h0; simp [TaskPC.isFinished] at h0
  | locked f => rw [ht] at h0; simp [TaskPC.isFinished] at h0
  | finished v =>
    obtain ⟨hv, hins⟩ := inv.finished_spec _ v ht
    refine ⟨hins, inv.ins_one hins, ?_⟩
    intro i w hw
    obtain ⟨hwu, _⟩ := inv.finished_spec i w hw
    rw [hwu]
    exact mkUserFromHub_token_eq token hu u hmk

/-- Witness for C2: two concrete tasks race for token "t"; the schedule lets
task 0 insert and task 1 hit the cache; one insert happens and the store ends
up holding alice's record. -/
theorem current_user_race_single_insert_witness :
    (raceRun "t" uAlice (raceInit 2 emptyStore) [0, 0, 1, 1]).inserts = 1
    ∧ (raceRun "t" uAlice (raceInit 2 emptyStore) [0, 0, 1, 1]).store "t" = some uAlice :=
  have h := current_user_race_single_insert 2 (by decide) "t" ⟨some "alice"⟩ uAlice
    (by decide) emptyStore rfl [0, 0, 1, 1] (by decide)
  ⟨h.1, h.2.1⟩

theorem string_mk_ne_empty (l : List Char) (h : l ≠ []) : String.mk l ≠ "" := by
  intro he
  apply h
  have hd : (String.mk l).data = ("" : String).data := by rw [he]
  simpa using hd

theorem pyWordsAux_mem_ne (cs : List Char) (acc : List Char) :
    ∀ w ∈ pyWordsAux cs acc, w ≠ "" := by
  induction cs generalizing acc with
  | nil =>
    intro w hw
    by_cases h : acc.isEmpty
    · simp [pyWordsAux, h] at hw
    · simp [pyWordsAux, h] at hw
      subst hw
      have hacc : acc ≠ [] := by simpa [List.isEmpty_iff] using h
      exact string_mk_ne_empty _ (by simp [hacc])
  | cons c cs ih =>
    intro w hw
    by_cases hc : isPySpace c
    · by_cases h : acc.isEmpty
      · simp [pyWordsAux, hc, h] at hw
        exact ih [] w hw
      · simp [pyWordsAux, hc, h] at hw
        rcases hw with hw | hw
        · subst hw
          have hacc : acc ≠ [] := by simpa [List.isEmpty_iff] using h
          exact string_mk_ne_empty _ (by simp [hacc])
        · exact ih [] w hw
    · simp only [pyWordsAux, Bool.not_eq_true] at hw
      rw [if_neg (by simp [hc])] at hw
      exact ih (c :: acc) w hw

theorem head_of_ne_empty (w : String) (h : w ≠ "") : ∃ c, w.data.head? = some c := by
  obtain ⟨l⟩ := w
  cases l with
  | nil => exact absurd rfl h
  | cons c cs => exact ⟨c, rfl⟩

theorem filterMap_head_eq_map (l : List String) (h : ∀ w ∈ l, w ≠ "")
    (g : Char → String) :
    l.filterMap (fun w => w.data.head?.map g)
      = l.map (fun w => (w.data.head?.map g).getD "") := by
  induction l with
  | nil => rfl
  | cons w l ih =>
    obtain ⟨c, hc⟩ := head_of_ne_empty w (h w (List.mem_cons_self _ _))
    rw [List.map_cons]
    rw [List.filterMap_cons]
    simp only [hc, Option.map_some', Option.getD_some]
    rw [ih (fun w' hw' => h w' (List.mem_cons_of_mem _ hw'))]

/-- C3: the initials derivation concatenates the uppercased first letter of
each whitespace-separated word of the display name and, when that yields no
characters, falls back to the uppercased first letter of the username;
"Alice Wonder" gives "AW", "alice" gives "A", and an empty or
whitespace-only display name with username "bob" gives "B". -/
theorem initials_derivation :
    mkInitials "Alice Wonder" "x" = some "AW"
    ∧ mkInitials "alice" "y" = some "A"
    ∧ mkInitials "" "bob" = some "B"
    ∧ mkInitials " \t " "bob" = some "B"
    ∧ (∀ d, wordInitials d
        = String.join ((pyWords d).map
            (fun w => ((w.data.head?.map
                (fun c => String.singleton (Char.toUpper c))).getD ""))))
    ∧ (∀ d un, mkInitials d un =
        if wordInitials d = "" then
          un.data.head?.map (fun c => String.singleton (Char.toUpper c))
        else some (wordInitials d)) := by
  refine ⟨by decide, by decide, by decide, by decide, ?_, fun d un => rfl⟩
  intro d
  unfold wordInitials
  have hne : ∀ w ∈ pyWords d, w ≠ "" := pyWordsAux_mem_ne d.data []
  have h1 : (pyWords d).filter (fun w => !w.isEmpty) = pyWords d := by
    apply List.filter_eq_self.mpr
    intro w hw
    have hw' := hne w hw
    cases hb : w.isEmpty with
    | false => rfl
    | true => exact absurd ((String.isEmpty_iff w).mp hb) hw'
  rw [h1, filterMap_head_eq_map _ hne]

/-- C4 counterexample: `update_user` applied with payload token→"evil" to a
record stored under token "tok" changes the record's token field, so the
token field is not immutable under arbitrary field-update payloads. -/
theorem update_user_token_overwritten :
    (update_user (some "tok") [("token", PyValue.str "evil")] st0).2
        = some { u0 with token := PyValue.str "evil" }
    ∧ ((update_user (some "tok") [("token", PyValue.str "evil")] st0).1 "tok")
        = some { u0 with token := PyValue.str "evil" }
    ∧ u0.token = PyValue.str "tok"
    ∧ PyValue.str "evil" ≠ PyValue.str "tok" := by
  refine ⟨rfl, rfl, rfl, by decide⟩

set_option maxHeartbeats 1000000 in
theorem setAttr_token_of_ne (u : ThinkubeUser) (k : String) (v : PyValue)
    (hk : k ≠ "token") : (setAttr u k v).token = u.token := by
  simp only [setAttr]
  split_ifs <;> rfl

theorem foldl_setAttr_token (data : List (String × PyValue)) (u : ThinkubeUser)
    (hd : ∀ kv ∈ data, kv.1 ≠ "token") :
    (data.foldl (fun a kv => setAttr a kv.1 kv.2) u).token = u.token := by
  induction data generalizing u with
  | nil => rfl
  | cons kv rest ih =>
    rw [List.foldl_cons]
    rw [ih _ (fun kv' h => hd kv' (List.mem_cons_of_mem _ h))]
    exact setAttr_token_of_ne u kv.1 kv.2 (hd kv (List.mem_cons_self _ _))

/-- C4 amended: `update_user` leaves the token field of every stored record
unchanged whenever its payload contains no "token" key; only a payload that
itself names "token" can overwrite it. -/
theorem update_user_token_unchanged_without_token_key
    (token? : Option String) (data : List (String × PyValue)) (s : Store)
    (hd : ∀ kv ∈ data, kv.1 ≠ "token") (k : String) :
    Option.map ThinkubeUser.token ((update_user token? data s).1 k)
      = Option.map ThinkubeUser.token (s k) := by
  cases token? with
  | none => rfl
  | some t =>
    cases hs : s t with
    | none => simp [update_user, hs]
    | some u =>
      simp only [update_user, hs]
      by_cases hk : k = t
      · subst hk
        simp [Store.insert, foldl_setAttr_token data u hd, hs]
      · simp [Store.insert, hk]

/-- Witness for the amended C4: a display-name-only payload leaves the token
of the stored record untouched. -/
theorem update_user_token_unchanged_witness :
    Option.map ThinkubeUser.token
        ((update_user (some "tok") [("display_name", PyValue.str "X")] st0).1 "tok")
      = Option.map ThinkubeUser.token (st0 "tok") :=
  update_user_token_unchanged_without_token_key (some "tok")
    [("display_name", PyValue.str "X")] st0 (by decide) "tok"

/-- C5 counterexample: with a hub client whose code-for-token exchange fails,
a callback request that passes the code and state checks does not produce the
handler's 403 Forbidden; the hub client's own exception propagates. -/
theorem oauth_callback_exchange_failure_not_forbidden :
    (oauth_callback envExchangeFail "ck" (some "c") (some "s") (some "s") emptyStore).2
        = CbOutcome.hubException { status := 500, msg := "exchange failed" }
    ∧ CbOutcome.isForbidden
        (oauth_callback envExchangeFail "ck" (some "c") (some "s") (some "s") emptyStore).2
        = false :=
  ⟨rfl, rfl⟩

/-- C5 amended: for every callback request that passes the code and state
checks, if the hub client's code-for-token exchange fails then the callback
propagates that failure unconverted (the caller does not receive the 403
Forbidden produced by the callback's own checks) and the Session Store is
left unchanged. -/
theorem oauth_callback_exchange_failure_propagates
    (env : CallbackEnv) (cookieName code st : String) (s : Store) (e : HubFailure)
    (hex : env.tokenForCode code = Except.error e) :
    oauth_callback env cookieName (some code) (some st) (some st) s
      = (s, CbOutcome.hubException e) := by
  simp [oauth_callback, hex]

/-- Witness for the amended C5 at a concrete failing exchange. -/
theorem oauth_callback_exchange_failure_propagates_witness :
    oauth_callback envExchangeFail "ck" (some "c") (some "s") (some "s") emptyStore
      = (emptyStore,
         CbOutcome.hubException { status := 500, msg := "exchange failed" }) :=
  oauth_callback_exchange_failure_propagates envExchangeFail "ck" "c" "s"
    emptyStore { status := 500, msg := "exchange failed" } rfl

theorem setAttr_not_field (u : ThinkubeUser) (k : String) (v : PyValue)
    (hk : ¬ k ∈ thinkubeFields) : setAttr u k v = u := by
  simp only [thinkubeFields, List.mem_cons, not_or] at hk
  obtain ⟨h1, h2, h3, h4, h5, h6, h7, h8, h9, h10, h11, -⟩ := hk
  simp only [setAttr]
  rw [if_neg h1, if_neg h2, if_neg h3, if_neg h4, if_neg h5, if_neg h6, if_neg h7,
      if_neg h8, if_neg h9, if_neg h10, if_neg h11]

theorem setAttr_display_name (u : ThinkubeUser) (v : PyValue) :
    setAttr u "display_name" v = { u with display_name := v } := rfl

/-- C6: `update_user` with no token or an unknown token returns nothing and
leaves the Session Store completely unchanged; with a known token and payload
display_name→x it sets only that field and returns the updated record, with
username, token, and every other record in the store unchanged; a payload key
naming an attribute the record does not expose is silently ignored. -/
theorem update_user_contract :
    (∀ data s, update_user none data s = (s, none))
    ∧ (∀ t data (s : Store), s t = none → update_user (some t) data s = (s, none))
    ∧ (∀ t (s : Store) u x, s t = some u →
        update_user (some t) [("display_name", PyValue.str x)] s
          = (s.insert t { u with display_name := PyValue.str x },
             some { u with display_name := PyValue.str x })
        ∧ ({ u with display_name := PyValue.str x }).username = u.username
        ∧ ({ u with display_name := PyValue.str x }).token = u.token
        ∧ (∀ k, k ≠ t → s.insert t { u with display_name := PyValue.str x } k = s k))
    ∧ (∀ t (s : Store) u k v, s t = some u → ¬ k ∈ thinkubeFields →
        (update_user (some t) [(k, v)] s).2 = some u
        ∧ ∀ kq, (update_user (some t) [(k, v)] s).1 kq = s kq) := by
  refine ⟨fun data s => rfl, ?_, ?_, ?_⟩
  · intro t data s h
    simp [update_user, h]
  · intro t s u x h
    refine ⟨?_, rfl, rfl, ?_⟩
    · simp [update_user, h, setAttr_display_name]
    · intro k hk
      simp [Store.insert, hk]
  · intro t s u k v h hk
    have hset : setAttr u k v = u := setAttr_not_field u k v hk
    constructor
    · simp [update_user, h, hset]
    · intro kq
      by_cases hq : kq = t
      · subst hq
        simp [update_user, h, hset, Store.insert]
      · simp [update_user, h, hset, Store.insert, hq]

/-- Witness for C6: an unknown token mutates nothing; a known token with a
display-name payload returns the record with just that field replaced. -/
theorem update_user_contract_witness :
    update_user (some "zzz") [("display_name", PyValue.str "X")] st0 = (st0, none)
    ∧ (update_user (some "tok") [("display_name", PyValue.str "X")] st0).2
        = some { u0 with display_name := PyValue.str "X" } :=
  ⟨update_user_contract.2.1 "zzz" [("display_name", PyValue.str "X")] st0 rfl,
   congrArg Prod.snd (update_user_contract.2.2.1 "tok" st0 u0 "X" rfl).1⟩

/-- C7: a WebSocket handshake with no session cookie, or whose token the hub
rejects, is closed with the policy-violation code 1008 and yields no
principal; one the hub accepts is accepted and yields the principal paired
with exactly the permissions the caller requested, unmodified. -/
theorem websocket_auth_contract
    (cookieName : String) (permissions : Option (List (String × List String)))
    (ws : Nat) (cookies : String → Option String)
    (hub : String → Option HubUser) :
    (cookies cookieName = none →
      websocket_auth cookieName permissions ws cookies hub = (none, some 1008))
    ∧ (∀ t, cookies cookieName = some t → hub t = none →
      websocket_auth cookieName permissions ws cookies hub = (none, some 1008))
    ∧ (∀ t hu, cookies cookieName = some t → hub t = some hu →
      websocket_auth cookieName permissions ws cookies hub
        = (some (ws, permissions), none)) := by
  refine ⟨fun h => ?_, fun t h1 h2 => ?_, fun t hu h1 h2 => ?_⟩
  · simp [websocket_auth, h]
  · simp [websocket_auth, h1, h2]
  · simp [websocket_auth, h1, h2]

/-- Witness for C7: a concrete handshake rejected by the hub closes with
1008; one accepted returns the requested permissions untouched. -/
theorem websocket_auth_contract_witness :
    websocket_auth "ck" (some [("contents", ["read"])]) 7 wsCookies hubRejects
        = (none, some 1008)
    ∧ websocket_auth "ck" (some [("contents", ["read"])]) 7 wsCookies hubAccepts
        = (some (7, some [("contents", ["read"])]), none) :=
  ⟨(websocket_auth_contract "ck" (some [("contents", ["read"])]) 7 wsCookies
      hubRejects).2.1 "t" rfl rfl,
   (websocket_auth_contract "ck" (some [("contents", ["read"])]) 7 wsCookies
      hubAccepts).2.2 "t" ⟨some "alice"⟩ rfl rfl⟩

/-- C8: for every successful `/api/me` request the identity object holds
exactly the six keys username, name, display_name, initials, avatar_url,
color, taken from the resolved record (getattr default `None` when absent);
and when the requested permissions map is empty or omitted, the returned
permissions object is empty regardless of the user's own permissions
field. -/
theorem api_me_shape (u : ThinkubeUser) (preq : List (String × List String)) :
    (get_api_me u preq).1
        = [("username", u.username), ("name", u.name),
           ("display_name", u.display_name), ("initials", u.initials),
           ("avatar_url", u.avatar_url), ("color", u.color)]
    ∧ (get_api_me u []).2 = [] :=
  ⟨rfl, rfl⟩

/-- C9: every record constructed by the shared derivation of the OAuth
callback and the current-user resolver's cache-miss path has its
display_name equal to its username (both come from the hub's name field). -/
theorem created_display_name_eq_username
    (t : String) (hu : HubUser) (u : ThinkubeUser)
    (h : mkUserFromHub t hu = some u) : u.display_name = u.username := by
  have hgd : hu.name?.getD (hu.name?.getD "anonymous") = hu.name?.getD "anonymous" := by
    cases hn : hu.name? <;> rfl
  simp only [mkUserFromHub] at h
  split at h
  · exact Option.noConfusion h
  · injection h with h'
    subst h'
    show PyValue.str (hu.name?.getD (hu.name?.getD "anonymous"))
        = PyValue.str (hu.name?.getD "anonymous")
    rw [hgd]

/-- Witness for C9 on the concrete record built for Alice Wonder. -/
theorem created_display_name_eq_username_witness :
    uAW.display_name = uAW.username :=
  created_display_name_eq_username "t" ⟨some "Alice Wonder"⟩ uAW (by decide)

/-- C10: record construction completes without error only when the derived
username is non-empty (the initials fallback indexes its first character),
and for a hub identity whose name field is present but empty the indexing
error branch is reached. -/
theorem record_creation_requires_nonempty_username :
    (∀ t hu u, mkUserFromHub t hu = some u → hu.name?.getD "anonymous" ≠ "")
    ∧ mkUserFromHub "tok" ⟨some ""⟩ = none := by
  constructor
  · intro t hu u h heq
    obtain ⟨name?⟩ := hu
    cases hn : name? with
    | none =>
      rw [hn] at heq
      exact absurd heq (by decide)
    | some str =>
      rw [hn, Option.getD_some] at heq
      subst heq
      rw [hn] at h
      have hnone : mkUserFromHub t ⟨some ""⟩ = none := rfl
      rw [hnone] at h
      exact Option.noConfusion h
  · rfl

/-- Witness for C10: a present, non-empty hub name yields a non-empty
derived username. -/
theorem record_creation_requires_nonempty_username_witness :
    (HubUser.mk (some "alice")).name?.getD "anonymous" ≠ "" :=
  record_creation_requires_nonempty_username.1 "t" ⟨some "alice"⟩ uAlice (by decide)

end FpsAuthThinkube
